import Mathlib

/-!
Shallow embedding of the realtime message hub in `src/server/server.py`
(FastAPI dummy realtime server): the `Hub` connection registry with its
three mappings (`ws_by_user`, `ws_rooms`, `sse_queues`), the broadcast
helpers, the message store with `get_history` and `post_message`, and the
per-frame handlers of the two WebSocket endpoints (`ws_chat`, `ws_signal`).

Modelling conventions:
- A connection handle (a `WebSocket` object) and an outbound queue
  (an `asyncio.Queue` object) are opaque comparable references, modelled
  as `Nat` identifiers.  Python `is` / equality on these objects is `=`.
- A Python dict keyed by strings is a partial map `String → Option α`;
  a Python set of handles is a duplicate-free `List Nat` (insertion adds
  at the end when absent), so iteration order is concrete.
- JSON values are the inductive `JValue`; a JSON object is an association
  list of fields in insertion order, as in a Python dict.
- The outcome of `json.loads raw` is an explicit input (`RecvOutcome`):
  either a decode error carrying the raw text, or a parsed `JValue`.
- `await ws.send_text(...)` may raise; which sends fail is environmental,
  so broadcast operations take a `wsFails : Nat → Bool` oracle (and
  `qFails` for `Queue.put_nowait`).  A successful send / enqueue is
  recorded as a `Delivery` event.
- Python exceptions that the modelled code does not catch are `PyErr`
  values in an `Except` result.
-/

/-- JSON value, as produced by `json.loads`: an object is an association
list of fields in insertion order (Python dict semantics). -/
inductive JValue : Type
  | null
  | bool (b : Bool)
  | num (n : Int)
  | str (s : String)
  | arr (elems : List JValue)
  | obj (fields : List (String × JValue))

/-- Partial map update `m[k] = v` (Python dict assignment). -/
def mapSet {α : Type} (m : String → Option α) (k : String) (v : α) :
    String → Option α :=
  fun k2 => if k2 = k then some v else m k2

/-- Partial map deletion `m.pop(k, None)`. -/
def mapDrop {α : Type} (m : String → Option α) (k : String) :
    String → Option α :=
  fun k2 => if k2 = k then none else m k2

/-- Python `m.get(k, d)`. -/
def getD {α : Type} (m : String → Option α) (k : String) (d : α) : α :=
  (m k).getD d

/-- Python `set.add` on a duplicate-free list: append when absent. -/
def pySetAdd (s : List Nat) (w : Nat) : List Nat :=
  if w ∈ s then s else s ++ [w]

/-- Hub state: the three registries of `class Hub` (server.py lines 28-36).
`ws_by_user` maps user_id to the set of chat WebSockets, `ws_rooms` maps
room_id to the set of signaling WebSockets, `sse_queues` maps user_id to
the list of SSE outbound queues. -/
structure Hub where
  ws_by_user : String → Option (List Nat)
  ws_rooms : String → Option (List Nat)
  sse_queues : String → Option (List Nat)

/-- The freshly constructed hub: all three defaultdicts empty. -/
def Hub.empty : Hub := ⟨fun _ => none, fun _ => none, fun _ => none⟩

/-- `Hub.add_ws_user` (lines 40-42): `self.ws_by_user[user_id].add(ws)`
under the lock; the defaultdict creates the entry when absent. -/
def add_ws_user (hub : Hub) (u : String) (w : Nat) : Hub :=
  { hub with ws_by_user := mapSet hub.ws_by_user u (pySetAdd (getD hub.ws_by_user u []) w) }

/-- `Hub.remove_ws_user` (lines 44-48): discard the handle, and pop the
user key when the remaining set is empty.  (The defaultdict access
materialises an empty set for an absent key, which is then popped, so an
absent key stays absent.) -/
def remove_ws_user (hub : Hub) (u : String) (w : Nat) : Hub :=
  let s := (getD hub.ws_by_user u []).erase w
  if s = [] then { hub with ws_by_user := mapDrop hub.ws_by_user u }
  else { hub with ws_by_user := mapSet hub.ws_by_user u s }

/-- `Hub.add_ws_room` (lines 66-68). -/
def add_ws_room (hub : Hub) (r : String) (w : Nat) : Hub :=
  { hub with ws_rooms := mapSet hub.ws_rooms r (pySetAdd (getD hub.ws_rooms r []) w) }

/-- `Hub.remove_ws_room` (lines 70-74). -/
def remove_ws_room (hub : Hub) (r : String) (w : Nat) : Hub :=
  let s := (getD hub.ws_rooms r []).erase w
  if s = [] then { hub with ws_rooms := mapDrop hub.ws_rooms r }
  else { hub with ws_rooms := mapSet hub.ws_rooms r s }

/-- The SSE endpoint's subscription (line 145-146):
`hub.sse_queues[user_id].append(q)` — defaultdict append, no lock. -/
def sse_subscribe (hub : Hub) (u : String) (q : Nat) : Hub :=
  { hub with sse_queues := mapSet hub.sse_queues u (getD hub.sse_queues u [] ++ [q]) }

/-- The SSE endpoint's cleanup (lines 163-167):
`try: hub.sse_queues[user_id].remove(q) except ValueError: pass`.
`list.remove` deletes the first occurrence; a `ValueError` (absent queue)
is swallowed.  The defaultdict access materialises the key, and the key is
NOT popped when the list becomes empty. -/
def sse_unsubscribe (hub : Hub) (u : String) (q : Nat) : Hub :=
  { hub with sse_queues := mapSet hub.sse_queues u ((getD hub.sse_queues u []).erase q) }

/-- One successful outbound effect of a broadcast: a WebSocket text send
to handle `w`, or an enqueue onto SSE queue `q`. -/
inductive Delivery : Type
  | wsText (w : Nat) (p : JValue)
  | enq (q : Nat) (p : JValue)

/-- One iteration of the WebSocket loop in `Hub.broadcast_to_user`
(lines 52-56): try to send; on failure, `remove_ws_user` and continue. -/
def wsSendStep (wsFails : Nat → Bool) (u : String) (p : JValue)
    (acc : Hub × List Delivery) (w : Nat) : Hub × List Delivery :=
  if wsFails w then (remove_ws_user acc.1 u w, acc.2)
  else (acc.1, acc.2 ++ [Delivery.wsText w p])

/-- One iteration of the SSE loop in `Hub.broadcast_to_user`
(lines 58-62): `q.put_nowait(payload)`, any exception swallowed. -/
def enqStep (qFails : Nat → Bool) (p : JValue)
    (acc : Hub × List Delivery) (q : Nat) : Hub × List Delivery :=
  if qFails q then acc else (acc.1, acc.2 ++ [Delivery.enq q p])

/-- `Hub.broadcast_to_user` (lines 50-62): iterate a snapshot of the
user's WebSocket set, then a snapshot of the user's SSE queue list
(read from the state left by the WebSocket loop). -/
def broadcast_to_user (wsFails qFails : Nat → Bool) (hub : Hub)
    (u : String) (p : JValue) : Hub × List Delivery :=
  let r1 := (getD hub.ws_by_user u []).foldl (wsSendStep wsFails u p) (hub, [])
  (getD r1.1.sse_queues u []).foldl (enqStep qFails p) r1

/-- One iteration of `Hub.broadcast_room` (lines 78-84): skip the sender,
try to send, on failure `remove_ws_room` and continue. -/
def roomStep (wsFails : Nat → Bool) (r : String) (p : JValue) (sender : Nat)
    (acc : Hub × List Delivery) (w : Nat) : Hub × List Delivery :=
  if w = sender then acc
  else if wsFails w then (remove_ws_room acc.1 r w, acc.2)
  else (acc.1, acc.2 ++ [Delivery.wsText w p])

/-- `Hub.broadcast_room` (lines 76-84). -/
def broadcast_room (wsFails : Nat → Bool) (hub : Hub) (r : String)
    (p : JValue) (sender : Nat) : Hub × List Delivery :=
  (getD hub.ws_rooms r []).foldl (roomStep wsFails r p sender) (hub, [])

/-- The WebSocket handles that received a given delivery list. -/
def wsRecipients (ds : List Delivery) : List Nat :=
  ds.filterMap (fun d => match d with | .wsText w _ => some w | _ => none)

/-- The SSE queues that received a given delivery list. -/
def enqRecipients (ds : List Delivery) : List Nat :=
  ds.filterMap (fun d => match d with | .enq q _ => some q | _ => none)

/-- The payload carried by a delivery. -/
def deliveredPayload : Delivery → JValue
  | .wsText _ p => p
  | .enq _ p => p

/-- A stored chat message (the dict built in `post_message`, lines
127-133): id, ISO timestamp, user_id, role, text. -/
structure ChatMsg where
  id : String
  ts : String
  user_id : String
  role : String
  text : String
deriving DecidableEq

/-- The JSON rendering of a stored chat message. -/
def msgJson (m : ChatMsg) : JValue :=
  .obj [("id", .str m.id), ("ts", .str m.ts), ("user_id", .str m.user_id),
        ("role", .str m.role), ("text", .str m.text)]

/-- The module-level `MESSAGES` store: user_id to ordered message list. -/
def MsgStore : Type := String → Option (List ChatMsg)

/-- Python list slice `l[-n:]` for `n > 0`: the last `min n (length l)`
elements (`Nat` subtraction matches Python clamping the start at 0). -/
def pyLastSlice (l : List ChatMsg) (n : Nat) : List ChatMsg :=
  l.drop (l.length - n)

/-- Python `str.strip()`: drop whitespace from both ends.  (Defined over
the character list so that it evaluates by kernel reduction.) -/
def pyStrip (s : String) : String :=
  ⟨(((s.data.dropWhile Char.isWhitespace).reverse).dropWhile Char.isWhitespace).reverse⟩

/-- `get_history` (lines 114-116): `MESSAGES.get(user_id, [])[-200:]`. -/
def get_history (messages : MsgStore) (u : String) : List ChatMsg :=
  pyLastSlice (getD messages u []) 200

/-- Combined server state touched by `post_message`. -/
structure SrvState where
  messages : MsgStore
  hub : Hub

/-- The JSON body of `POST /api/message`; the claims only exercise string
(or absent) field values, so the three fields are optional strings. -/
structure PostBody where
  user_id : Option String
  text : Option String
  role : Option String

/-- Result of `post_message`: either the `HTTPException` raised on
validation failure, or the success JSON `ok: true` with the message. -/
inductive PostResult : Type
  | httpError (status : Nat) (detail : String)
  | ok (message : ChatMsg)

/-- `post_message` (lines 118-137).  `newId` and `now` stand for
`str(uuid.uuid4())` and `utc_iso()`; the broadcast failure oracles are
threaded through.  Returns the response, the new state, and the
deliveries performed by the single `broadcast_to_user` call (empty when
the exception is raised before any mutation). -/
def post_message (newId now : String) (wsFails qFails : Nat → Bool)
    (st : SrvState) (body : PostBody) :
    PostResult × SrvState × List Delivery :=
  let user_id := pyStrip (body.user_id.getD "")
  let text := pyStrip (body.text.getD "")
  let role := pyStrip (match body.role with
                       | none => "user"
                       | some s => if s = "" then "user" else s)
  if user_id = "" ∨ text = "" then
    (.httpError 400 "user_id and text are required", st, [])
  else
    let msg : ChatMsg := ⟨newId, now, user_id, role, text⟩
    let messages2 := mapSet st.messages user_id (getD st.messages user_id [] ++ [msg])
    let r := broadcast_to_user wsFails qFails st.hub user_id
               (.obj [("type", .str "message"), ("data", msgJson msg)])
    (.ok msg, ⟨messages2, r.1⟩, r.2)

/-- The outcome of `json.loads raw` on one inbound frame: a
`json.JSONDecodeError` (carrying the raw text), or the parsed value. -/
inductive RecvOutcome : Type
  | badJson (raw : String)
  | okJson (v : JValue)

/-- A Python exception escaping the per-frame code (caught only by the
endpoint's outer `except`, which tears the connection down). -/
inductive PyErr : Type
  | attributeError
  | typeError
deriving DecidableEq

/-- First-match association-list lookup: Python `dict.get(k)` on a JSON
object's fields. -/
def jLookup : List (String × JValue) → String → Option JValue
  | [], _ => none
  | (k, v) :: rest, key => if key = k then some v else jLookup rest key

/-- Python truthiness of a JSON value (`bool(v)`). -/
def pyTruthy : JValue → Bool
  | .null => false
  | .bool b => b
  | .num n => decide (n ≠ 0)
  | .str s => decide (s ≠ "")
  | .arr elems => !elems.isEmpty
  | .obj fields => !fields.isEmpty

/-- Python dict-literal update `{**fields, k: v}`: overwrite in place when
the key exists, else append. -/
def dictSet (fields : List (String × JValue)) (k : String) (v : JValue) :
    List (String × JValue) :=
  if (fields.map Prod.fst).contains k then
    fields.map (fun kv => if kv.1 = k then (k, v) else kv)
  else fields ++ [(k, v)]

/-- `payload.setdefault(k, v)`: keep an existing key, append otherwise;
raises `AttributeError` on a non-dict. -/
def pySetdefault (v : JValue) (k : String) (dflt : JValue) :
    Except PyErr JValue :=
  match v with
  | .obj fields =>
      .ok (.obj (if (fields.map Prod.fst).contains k then fields
                 else fields ++ [(k, dflt)]))
  | _ => .error .attributeError

/-- `ws_chat` normalization (lines 190-194): a `JSONDecodeError` wraps the
raw text as a plain-text message. -/
def chat_normalize (r : RecvOutcome) : JValue :=
  match r with
  | .badJson raw => .obj [("type", .str "text"), ("data", .obj [("text", .str raw)])]
  | .okJson v => v

/-- One outbound effect of the chat per-frame handler: a direct reply on
the sender's socket, or a `broadcast_to_user` call with a payload. -/
inductive ChatEffect : Type
  | reply (frame : JValue)
  | bcast (u : String) (p : JValue)

/-- The per-frame body of the `ws_chat` receive loop (lines 190-210),
after `json.loads`.  `msg.get("type")` raises `AttributeError` when the
parsed value is not a dict; `{**(msg.get("data") or {}), ...}` raises
`TypeError` when `data` is truthy but not a dict.  Branches: `ping` gets
a `pong` reply and no broadcast; `message` gets an `echo` reply plus one
`broadcast_to_user` of the data merged with `echoed: true, ts`; anything
else gets an `ack` reply. -/
def ws_chat_handle (now user_id : String) (r : RecvOutcome) :
    Except PyErr (List ChatEffect) :=
  match chat_normalize r with
  | .obj fields =>
      let mtype : Option String :=
        match jLookup fields "type" with
        | some (.str s) => some s
        | _ => none
      if mtype = some "ping" then
        .ok [.reply (.obj [("type", .str "pong"), ("ts", .str now)])]
      else if mtype = some "message" then
        let d := jLookup fields "data"
        let base : JValue := match d with
          | some v => if pyTruthy v then v else .obj []
          | none => .obj []
        match base with
        | .obj bfs =>
            .ok [.reply (.obj [("type", .str "echo"), ("data", d.getD .null)]),
                 .bcast user_id (.obj [("type", .str "message"),
                   ("data", .obj (dictSet (dictSet bfs "echoed" (.bool true)) "ts" (.str now)))])]
        | _ => .error .typeError
      else
        .ok [.reply (.obj [("type", .str "ack"), ("data", .obj fields), ("ts", .str now)])]
  | _ => .error .attributeError

/-- `ws_signal` normalization (lines 233-236): a `JSONDecodeError` wraps
the raw text as a `raw` frame. -/
def signal_normalize (r : RecvOutcome) : JValue :=
  match r with
  | .badJson raw => .obj [("type", .str "raw"), ("data", .str raw)]
  | .okJson v => v

/-- The per-frame body of the `ws_signal` receive loop (lines 232-239):
normalize, `payload.setdefault("ts", utc_iso())`, then
`broadcast_room(room_id, payload, sender=websocket)`. -/
def ws_signal_handle (now room : String) (sender : Nat)
    (wsFails : Nat → Bool) (hub : Hub) (r : RecvOutcome) :
    Except PyErr (Hub × List Delivery) :=
  match pySetdefault (signal_normalize r) "ts" (.str now) with
  | .error e => .error e
  | .ok p => .ok (broadcast_room wsFails hub room p sender)

/-- The three Hub mappings, for the lock-discipline model. -/
inductive MapField : Type
  | chat
  | rooms
  | push
deriving DecidableEq

/-- Lock-relevant events in the execution of one Hub-touching operation:
acquiring `hub._lock`, releasing it, or mutating one of the three
mappings. -/
inductive LockEv : Type
  | acq
  | rel
  | mut (f : MapField)
deriving DecidableEq

/-- The operations of the source that mutate Hub mappings, abstracted to
what each does with the lock.  Broadcasts are parameterised by the number
of failed sends (each failure triggers one locked removal). -/
inductive HubOp : Type
  | addWsUser
  | removeWsUser
  | addWsRoom
  | removeWsRoom
  | sseSubscribe
  | sseUnsubscribe
  | broadcastToUser (nFail : Nat)
  | broadcastRoom (nFail : Nat)

/-- The lock/mutation event trace of each operation, read off the source:
the four `Hub` add/remove methods wrap their mutation in
`async with self._lock`; the SSE endpoint's `append` (line 146) and
`remove` (line 165) touch `sse_queues` with no lock; each send failure
during a broadcast runs the corresponding locked remove method. -/
def opEvents : HubOp → List LockEv
  | .addWsUser => [.acq, .mut .chat, .rel]
  | .removeWsUser => [.acq, .mut .chat, .rel]
  | .addWsRoom => [.acq, .mut .rooms, .rel]
  | .removeWsRoom => [.acq, .mut .rooms, .rel]
  | .sseSubscribe => [.mut .push]
  | .sseUnsubscribe => [.mut .push]
  | .broadcastToUser nFail => (List.replicate nFail [LockEv.acq, .mut .chat, .rel]).flatten
  | .broadcastRoom nFail => (List.replicate nFail [LockEv.acq, .mut .rooms, .rel]).flatten

/-- `mutationsLockedOn sel evs depth`: scanning `evs` with `depth` locks
currently held, every mutation of a field selected by `sel` happens with
the lock held. -/
def mutationsLockedOn (sel : MapField → Bool) : List LockEv → Nat → Bool
  | [], _ => true
  | .acq :: rest, depth => mutationsLockedOn sel rest (depth + 1)
  | .rel :: rest, depth => mutationsLockedOn sel rest (depth - 1)
  | .mut f :: rest, depth =>
      (!sel f || decide (0 < depth)) && mutationsLockedOn sel rest depth

/-- Every mutation of every mapping is lock-protected. -/
def mutationsLocked (evs : List LockEv) (depth : Nat) : Bool :=
  mutationsLockedOn (fun _ => true) evs depth

/-- The Hub states reachable from the fresh hub by the mutating
operations of the source: the four add/remove methods, the SSE endpoint's
subscribe/cleanup, and the two broadcasts (whose failure oracles run the
remove methods). -/
inductive ReachableHub : Hub → Prop
  | init : ReachableHub Hub.empty
  | addUser {h : Hub} (u : String) (w : Nat) :
      ReachableHub h → ReachableHub (add_ws_user h u w)
  | removeUser {h : Hub} (u : String) (w : Nat) :
      ReachableHub h → ReachableHub (remove_ws_user h u w)
  | addRoom {h : Hub} (r : String) (w : Nat) :
      ReachableHub h → ReachableHub (add_ws_room h r w)
  | removeRoom {h : Hub} (r : String) (w : Nat) :
      ReachableHub h → ReachableHub (remove_ws_room h r w)
  | sseSub {h : Hub} (u : String) (q : Nat) :
      ReachableHub h → ReachableHub (sse_subscribe h u q)
  | sseUnsub {h : Hub} (u : String) (q : Nat) :
      ReachableHub h → ReachableHub (sse_unsubscribe h u q)
  | bUser {h : Hub} (wsFails qFails : Nat → Bool) (u : String) (p : JValue) :
      ReachableHub h → ReachableHub (broadcast_to_user wsFails qFails h u p).1
  | bRoom {h : Hub} (wsFails : Nat → Bool) (r : String) (p : JValue) (s : Nat) :
      ReachableHub h → ReachableHub (broadcast_room wsFails h r p s).1

theorem getD_mapSet_self {α : Type} (m : String → Option α) (k : String) (v d : α) :
    getD (mapSet m k v) k d = v := by
  simp [getD, mapSet]

theorem mapSet_ne {α : Type} (m : String → Option α) (k : String) (v : α)
    (k2 : String) (h : k2 ≠ k) : mapSet m k v k2 = m k2 := by
  simp [mapSet, h]

theorem mapDrop_ne {α : Type} (m : String → Option α) (k : String)
    (k2 : String) (h : k2 ≠ k) : mapDrop m k k2 = m k2 := by
  simp [mapDrop, h]

theorem remove_ws_user_ws_rooms (hub : Hub) (u : String) (w : Nat) :
    (remove_ws_user hub u w).ws_rooms = hub.ws_rooms := by
  by_cases h : (getD hub.ws_by_user u []).erase w = [] <;>
    simp [remove_ws_user, h]

theorem remove_ws_user_sse_queues (hub : Hub) (u : String) (w : Nat) :
    (remove_ws_user hub u w).sse_queues = hub.sse_queues := by
  by_cases h : (getD hub.ws_by_user u []).erase w = [] <;>
    simp [remove_ws_user, h]

theorem remove_ws_user_getD_self (hub : Hub) (u : String) (w : Nat) :
    getD (remove_ws_user hub u w).ws_by_user u [] =
      (getD hub.ws_by_user u []).erase w := by
  simp only [remove_ws_user]
  split
  · rename_i h
    rw [h]
    simp [getD, mapDrop]
  · simp [getD, mapSet]

theorem remove_ws_user_other (hub : Hub) (u : String) (w : Nat)
    (v : String) (h : v ≠ u) :
    (remove_ws_user hub u w).ws_by_user v = hub.ws_by_user v := by
  by_cases hs : (getD hub.ws_by_user u []).erase w = []
  · simp only [remove_ws_user, hs, if_true]
    exact mapDrop_ne _ _ _ h
  · simp only [remove_ws_user, hs, if_false]
    exact mapSet_ne _ _ _ _ h

theorem remove_ws_room_ws_by_user (hub : Hub) (r : String) (w : Nat) :
    (remove_ws_room hub r w).ws_by_user = hub.ws_by_user := by
  by_cases h : (getD hub.ws_rooms r []).erase w = [] <;>
    simp [remove_ws_room, h]

theorem remove_ws_room_sse_queues (hub : Hub) (r : String) (w : Nat) :
    (remove_ws_room hub r w).sse_queues = hub.sse_queues := by
  by_cases h : (getD hub.ws_rooms r []).erase w = [] <;>
    simp [remove_ws_room, h]

/-- The WebSocket send loop with no failing handle on the list: the state
is untouched and one delivery per handle is appended, in list order. -/
theorem wsFold_nofail (wsFails : Nat → Bool) (u : String) (p : JValue)
    (l : List Nat) (acc : Hub × List Delivery)
    (hf : ∀ w ∈ l, wsFails w = false) :
    l.foldl (wsSendStep wsFails u p) acc =
      (acc.1, acc.2 ++ l.map (fun w => Delivery.wsText w p)) := by
  induction l generalizing acc with
  | nil => simp
  | cons w t ih =>
    have hw : wsFails w = false := hf w (List.mem_cons_self w t)
    have ht : ∀ x ∈ t, wsFails x = false :=
      fun x hx => hf x (List.mem_cons_of_mem w hx)
    simp only [List.foldl_cons, wsSendStep, hw, Bool.false_eq_true, if_false]
    rw [ih _ ht]
    simp

/-- The SSE enqueue loop: the state component is untouched; one delivery
per non-failing queue is appended, in list order. -/
theorem enqFold (qFails : Nat → Bool) (p : JValue) (l : List Nat)
    (acc : Hub × List Delivery) :
    l.foldl (enqStep qFails p) acc =
      (acc.1, acc.2 ++ (l.filter (fun q => !qFails q)).map
        (fun q => Delivery.enq q p)) := by
  induction l generalizing acc with
  | nil => simp
  | cons q t ih =>
    by_cases hq : qFails q = true
    · simp only [List.foldl_cons, enqStep, hq, if_true]
      rw [ih]
      simp [hq]
    · simp only [List.foldl_cons, enqStep, hq, if_false]
      rw [ih]
      simp [Bool.eq_false_iff.mpr hq, hq]

/-- The room relay loop with no failing handle: the state is untouched and
one delivery is appended per non-sender handle, in list order. -/
theorem roomFold_nofail (r : String) (p : JValue) (sender : Nat)
    (l : List Nat) (acc : Hub × List Delivery) :
    l.foldl (roomStep (fun _ => false) r p sender) acc =
      (acc.1, acc.2 ++ (l.filter (fun w => w ≠ sender)).map
        (fun w => Delivery.wsText w p)) := by
  induction l generalizing acc with
  | nil => simp
  | cons w t ih =>
    by_cases hw : w = sender
    · simp only [List.foldl_cons, roomStep, hw, if_true]
      rw [ih]
      simp
    · simp only [List.foldl_cons, roomStep, hw, if_false, Bool.false_eq_true]
      rw [ih]
      simp [hw]

/-- The WebSocket send loop when exactly the handle `bad` fails (and `bad`
occurs in the duplicate-free snapshot): `bad` is unregistered via
`remove_ws_user`, and every other handle still gets its delivery. -/
theorem wsFold_single_fail (u : String) (p : JValue) (bad : Nat)
    (l : List Nat) (hub : Hub) (ds : List Delivery)
    (hnd : l.Nodup) (hin : bad ∈ l) :
    l.foldl (wsSendStep (fun w => w == bad) u p) (hub, ds) =
      (remove_ws_user hub u bad,
       ds ++ (l.filter (fun w => w ≠ bad)).map (fun w => Delivery.wsText w p)) := by
  induction l generalizing ds with
  | nil => cases hin
  | cons w t ih =>
    by_cases hw : w = bad
    · subst hw
      have hnotin : w ∉ t := (List.nodup_cons.mp hnd).1
      have ht : ∀ x ∈ t, (x == w) = false := by
        intro x hx
        exact beq_eq_false_iff_ne.mpr (fun hxw => hnotin (hxw ▸ hx))
      simp only [List.foldl_cons, wsSendStep, beq_self_eq_true, if_true]
      rw [wsFold_nofail _ _ _ _ _ ht]
      have h1 : List.filter (fun x => decide (x ≠ w)) t = t :=
        List.filter_eq_self.mpr (fun x hx => by
          simpa using beq_eq_false_iff_ne.mp (ht x hx))
      have hcons : List.filter (fun x => decide (x ≠ w)) (w :: t) = t := by
        simp [List.filter_cons, h1]
        exact fun a ha => beq_eq_false_iff_ne.mp (ht a ha)
      rw [hcons]
    · have hbt : bad ∈ t := by
        rcases List.mem_cons.mp hin with h | h
        · exact absurd h.symm hw
        · exact h
      simp only [List.foldl_cons, wsSendStep, beq_eq_false_iff_ne.mpr hw,
        Bool.false_eq_true, if_false]
      rw [ih _ (List.nodup_cons.mp hnd).2 hbt]
      simp [hw]

theorem wsRecipients_append (a b : List Delivery) :
    wsRecipients (a ++ b) = wsRecipients a ++ wsRecipients b := by
  simp [wsRecipients, List.filterMap_append]

theorem enqRecipients_append (a b : List Delivery) :
    enqRecipients (a ++ b) = enqRecipients a ++ enqRecipients b := by
  simp [enqRecipients, List.filterMap_append]

theorem wsRecipients_wsMap (l : List Nat) (p : JValue) :
    wsRecipients (l.map (fun w => Delivery.wsText w p)) = l := by
  induction l with
  | nil => rfl
  | cons w t ih => simpa [wsRecipients, List.filterMap_cons] using ih

theorem wsRecipients_enqMap (l : List Nat) (p : JValue) :
    wsRecipients (l.map (fun q => Delivery.enq q p)) = [] := by
  induction l with
  | nil => rfl
  | cons q t ih => simp [wsRecipients, List.filterMap_cons, ih]

theorem enqRecipients_wsMap (l : List Nat) (p : JValue) :
    enqRecipients (l.map (fun w => Delivery.wsText w p)) = [] := by
  induction l with
  | nil => rfl
  | cons w t ih => simp [enqRecipients, List.filterMap_cons, ih]

theorem enqRecipients_enqMap (l : List Nat) (p : JValue) :
    enqRecipients (l.map (fun q => Delivery.enq q p)) = l := by
  induction l with
  | nil => rfl
  | cons q t ih => simpa [enqRecipients, List.filterMap_cons] using ih

/-- A concrete hub used by the witnesses: user `alice` has chat handles
1 and 2 and SSE queues 10 and 11; room `r1` has handles 5 and 6. -/
def demoHub : Hub :=
  ⟨fun u2 => if u2 = "alice" then some [1, 2] else none,
   fun r2 => if r2 = "r1" then some [5, 6] else none,
   fun u2 => if u2 = "alice" then some [10, 11] else none⟩

/-- C1: with no send failures, a single `broadcast_to_user(user_id, p)`
delivers `p` exactly once to each chat handle in `ws_by_user[user_id]` and
enqueues it exactly once onto each queue in `sse_queues[user_id]`; every
delivery carries the identical payload `p`, and handles or queues not
registered under this user_id receive nothing. -/
theorem broadcast_to_user_fanout (hub : Hub) (u : String) (p : JValue)
    (hchat : (getD hub.ws_by_user u []).Nodup)
    (hqs : (getD hub.sse_queues u []).Nodup) :
    let ds := (broadcast_to_user (fun _ => false) (fun _ => false) hub u p).2
    ds = (getD hub.ws_by_user u []).map (fun w => Delivery.wsText w p) ++
         (getD hub.sse_queues u []).map (fun q => Delivery.enq q p) ∧
    (∀ w ∈ getD hub.ws_by_user u [], (wsRecipients ds).count w = 1) ∧
    (∀ q ∈ getD hub.sse_queues u [], (enqRecipients ds).count q = 1) ∧
    (∀ w, w ∉ getD hub.ws_by_user u [] → (wsRecipients ds).count w = 0) ∧
    (∀ q, q ∉ getD hub.sse_queues u [] → (enqRecipients ds).count q = 0) ∧
    (∀ d ∈ ds, deliveredPayload d = p) := by
  intro ds
  have key : ds = (getD hub.ws_by_user u []).map (fun w => Delivery.wsText w p) ++
      (getD hub.sse_queues u []).map (fun q => Delivery.enq q p) := by
    show (broadcast_to_user _ _ _ _ _).2 = _
    simp only [broadcast_to_user]
    rw [wsFold_nofail _ _ _ _ _ (fun _ _ => rfl), enqFold]
    simp
  have hws : wsRecipients ds = getD hub.ws_by_user u [] := by
    rw [key, wsRecipients_append, wsRecipients_wsMap, wsRecipients_enqMap,
      List.append_nil]
  have henq : enqRecipients ds = getD hub.sse_queues u [] := by
    rw [key, enqRecipients_append, enqRecipients_wsMap, enqRecipients_enqMap,
      List.nil_append]
  refine ⟨key, ?_, ?_, ?_, ?_, ?_⟩
  · intro w hw
    rw [hws]
    exact List.count_eq_one_of_mem hchat hw
  · intro q hq
    rw [henq]
    exact List.count_eq_one_of_mem hqs hq
  · intro w hw
    rw [hws]
    exact List.count_eq_zero_of_not_mem hw
  · intro q hq
    rw [henq]
    exact List.count_eq_zero_of_not_mem hq
  · intro d hd
    rw [key] at hd
    rcases List.mem_append.mp hd with h | h <;>
      · obtain ⟨x, _, rfl⟩ := List.mem_map.mp h
        rfl

theorem broadcast_to_user_fanout_witness :
    (broadcast_to_user (fun _ => false) (fun _ => false) demoHub "alice"
        (JValue.str "m")).2 =
      [Delivery.wsText 1 (JValue.str "m"), Delivery.wsText 2 (JValue.str "m"),
       Delivery.enq 10 (JValue.str "m"), Delivery.enq 11 (JValue.str "m")] := by
  have h := (broadcast_to_user_fanout demoHub "alice" (JValue.str "m")
    (by decide) (by decide)).1
  simpa [demoHub, getD] using h

/-- C2: with no send failures, `broadcast_room(room_id, p, sender)`
delivers `p` to every handle registered in `ws_rooms[room_id]` except the
sender; the sender never receives its own relayed payload, every delivery
goes to a non-sender member of the room (so handles in other rooms receive
nothing), and the hub state is unchanged. -/
theorem broadcast_room_excludes (hub : Hub) (r : String) (p : JValue)
    (sender : Nat) :
    let res := broadcast_room (fun _ => false) hub r p sender
    res.1 = hub ∧
    res.2 = ((getD hub.ws_rooms r []).filter (fun w => w ≠ sender)).map
      (fun w => Delivery.wsText w p) ∧
    (∀ p2, Delivery.wsText sender p2 ∉ res.2) ∧
    (∀ d ∈ res.2, ∃ w, w ∈ getD hub.ws_rooms r [] ∧ w ≠ sender ∧
      d = Delivery.wsText w p) := by
  intro res
  have key : res = (hub, ((getD hub.ws_rooms r []).filter
      (fun w => w ≠ sender)).map (fun w => Delivery.wsText w p)) := by
    show broadcast_room _ _ _ _ _ = _
    unfold broadcast_room
    rw [roomFold_nofail]
    simp
  refine ⟨by rw [key], by rw [key], ?_, ?_⟩
  · intro p2 hmem
    rw [key] at hmem
    simp only [List.mem_map, List.mem_filter] at hmem
    obtain ⟨w, ⟨hw1, hw2⟩, heq⟩ := hmem
    simp only [Delivery.wsText.injEq] at heq
    simp [heq.1] at hw2
  · intro d hd
    rw [key] at hd
    simp only [List.mem_map, List.mem_filter] at hd
    obtain ⟨w, ⟨hw1, hw2⟩, rfl⟩ := hd
    exact ⟨w, hw1, by simpa using hw2, rfl⟩

theorem broadcast_room_excludes_witness :
    (broadcast_room (fun _ => false) demoHub "r1" (JValue.str "s") 5).2 =
      [Delivery.wsText 6 (JValue.str "s")] ∧
    (∀ p2, Delivery.wsText 5 p2 ∉
      (broadcast_room (fun _ => false) demoHub "r1" (JValue.str "s") 5).2) := by
  have h := broadcast_room_excludes demoHub "r1" (JValue.str "s") 5
  refine ⟨?_, h.2.2.1⟩
  have h2 := h.2.1
  simpa [demoHub, getD] using h2

/-- C3: during `broadcast_to_user`, when the send to chat handle `bad`
fails, that handle — and only that handle — is removed from `ws_by_user`
(other keys and the other two mappings are untouched), while every other
chat handle of the user and every SSE queue of the user still receives
the payload; the call itself returns normally (it is total). -/
theorem broadcast_to_user_self_heal (hub : Hub) (u : String) (p : JValue)
    (bad : Nat)
    (hnd : (getD hub.ws_by_user u []).Nodup)
    (hbad : bad ∈ getD hub.ws_by_user u []) :
    let res := broadcast_to_user (fun w => w == bad) (fun _ => false) hub u p
    getD res.1.ws_by_user u [] = (getD hub.ws_by_user u []).erase bad ∧
    (∀ v, v ≠ u → res.1.ws_by_user v = hub.ws_by_user v) ∧
    res.1.ws_rooms = hub.ws_rooms ∧
    res.1.sse_queues = hub.sse_queues ∧
    res.2 = ((getD hub.ws_by_user u []).filter (fun w => w ≠ bad)).map
        (fun w => Delivery.wsText w p) ++
      (getD hub.sse_queues u []).map (fun q => Delivery.enq q p) := by
  intro res
  have key : res = (remove_ws_user hub u bad,
      ((getD hub.ws_by_user u []).filter (fun w => w ≠ bad)).map
        (fun w => Delivery.wsText w p) ++
      (getD hub.sse_queues u []).map (fun q => Delivery.enq q p)) := by
    show broadcast_to_user _ _ _ _ _ = _
    simp only [broadcast_to_user]
    rw [wsFold_single_fail u p bad _ hub [] hnd hbad, enqFold]
    simp [remove_ws_user_sse_queues]
  refine ⟨?_, ?_, ?_, ?_, by rw [key]⟩
  · rw [key]
    exact remove_ws_user_getD_self hub u bad
  · intro v hv
    rw [key]
    exact remove_ws_user_other hub u bad v hv
  · rw [key]
    exact remove_ws_user_ws_rooms hub u bad
  · rw [key]
    exact remove_ws_user_sse_queues hub u bad

theorem broadcast_to_user_self_heal_witness :
    getD (broadcast_to_user (fun w => w == 1) (fun _ => false) demoHub "alice"
        (JValue.str "x")).1.ws_by_user "alice" [] = [2] ∧
    (broadcast_to_user (fun w => w == 1) (fun _ => false) demoHub "alice"
        (JValue.str "x")).2 =
      [Delivery.wsText 2 (JValue.str "x"), Delivery.enq 10 (JValue.str "x"),
       Delivery.enq 11 (JValue.str "x")] := by
  have h := broadcast_to_user_self_heal demoHub "alice" (JValue.str "x") 1
    (by decide) (by decide)
  constructor
  · have h1 := h.1
    simpa [demoHub, getD] using h1
  · have h5 := h.2.2.2.2
    simpa [demoHub, getD] using h5

/-- C10: when enqueueing onto one push queue fails, the failure is
swallowed: the whole hub state (in particular `sse_queues`) is unchanged
— the failing queue is not removed — while every chat handle and every
other queue of the user still receives the payload, and the call returns
normally (it is total). -/
theorem push_enqueue_failure_swallowed (hub : Hub) (u : String) (p : JValue)
    (bad : Nat) (hbad : bad ∈ getD hub.sse_queues u []) :
    let res := broadcast_to_user (fun _ => false) (fun q => q == bad) hub u p
    res.1 = hub ∧
    bad ∈ getD res.1.sse_queues u [] ∧
    res.2 = (getD hub.ws_by_user u []).map (fun w => Delivery.wsText w p) ++
      ((getD hub.sse_queues u []).filter (fun q => !(q == bad))).map
        (fun q => Delivery.enq q p) := by
  intro res
  have key : res = (hub,
      (getD hub.ws_by_user u []).map (fun w => Delivery.wsText w p) ++
      ((getD hub.sse_queues u []).filter (fun q => !(q == bad))).map
        (fun q => Delivery.enq q p)) := by
    show broadcast_to_user _ _ _ _ _ = _
    simp only [broadcast_to_user]
    rw [wsFold_nofail _ _ _ _ _ (fun _ _ => rfl), enqFold]
    simp
  exact ⟨by rw [key], by rw [key]; exact hbad, by rw [key]⟩

theorem push_enqueue_failure_swallowed_witness :
    (broadcast_to_user (fun _ => false) (fun q => q == 10) demoHub "alice"
        (JValue.str "y")).1 = demoHub ∧
    (broadcast_to_user (fun _ => false) (fun q => q == 10) demoHub "alice"
        (JValue.str "y")).2 =
      [Delivery.wsText 1 (JValue.str "y"), Delivery.wsText 2 (JValue.str "y"),
       Delivery.enq 11 (JValue.str "y")] := by
  have h := push_enqueue_failure_swallowed demoHub "alice" (JValue.str "y") 10
    (by decide)
  constructor
  · exact h.1
  · have h3 := h.2.2
    simpa [demoHub, getD] using h3

/-- C6: `get_history(user_id)` returns a suffix of that user's stored
sequence (the most recent entries, in original insertion order), of
length `min (stored length) 200` — so exactly 200 when more than 200
messages were appended — and returns the empty sequence for a user_id
with no stored messages; it is a total function (never an error). -/
theorem get_history_bound (messages : MsgStore) (u : String) :
    get_history messages u <:+ getD messages u [] ∧
    (get_history messages u).length = min (getD messages u []).length 200 ∧
    (messages u = none → get_history messages u = []) := by
  refine ⟨List.drop_suffix _ _, ?_, ?_⟩
  · simp only [get_history, pyLastSlice, List.length_drop]
    omega
  · intro h
    simp [get_history, pyLastSlice, getD, h]

theorem get_history_bound_witness :
    get_history (fun _ => none) "no-such-user" <:+
      getD (fun _ => none : MsgStore) "no-such-user" [] ∧
    (get_history (fun _ => none) "no-such-user").length =
      min (getD (fun _ => none : MsgStore) "no-such-user" []).length 200 ∧
    ((fun _ => none : MsgStore) "no-such-user" = none →
      get_history (fun _ => none) "no-such-user" = []) :=
  get_history_bound (fun _ => none) "no-such-user"

/-- No key of the chat registry or of the room registry maps to an empty
set (the spec's no-dangling-empty-entries invariant, restricted to the
two mappings that actually maintain it). -/
def NoEmptyWs (hub : Hub) : Prop :=
  ∀ k, hub.ws_by_user k ≠ some [] ∧ hub.ws_rooms k ≠ some []

theorem pySetAdd_ne_nil (s : List Nat) (w : Nat) : pySetAdd s w ≠ [] := by
  unfold pySetAdd
  split
  · rename_i h
    exact List.ne_nil_of_mem h
  · simp

theorem noEmptyWs_add_ws_user (hub : Hub) (u : String) (w : Nat)
    (h : NoEmptyWs hub) : NoEmptyWs (add_ws_user hub u w) := by
  intro k
  refine ⟨?_, (h k).2⟩
  show mapSet hub.ws_by_user u (pySetAdd (getD hub.ws_by_user u []) w) k ≠ some []
  by_cases hk : k = u
  · subst hk
    simp [mapSet, pySetAdd_ne_nil]
  · simp only [mapSet, hk, if_false]
    exact (h k).1

theorem remove_ws_user_keeps_nonempty (hub : Hub) (u : String) (w : Nat)
    (k : String) (h : hub.ws_by_user k ≠ some []) :
    (remove_ws_user hub u w).ws_by_user k ≠ some [] := by
  by_cases hk : k = u
  · subst hk
    by_cases hs : (getD hub.ws_by_user k []).erase w = []
    · simp [remove_ws_user, hs, mapDrop]
    · simp [remove_ws_user, hs, mapSet]
  · by_cases hs : (getD hub.ws_by_user u []).erase w = []
    · simpa [remove_ws_user, hs, mapDrop, hk] using h
    · simpa [remove_ws_user, hs, mapSet, hk] using h

theorem noEmptyWs_remove_ws_user (hub : Hub) (u : String) (w : Nat)
    (h : NoEmptyWs hub) : NoEmptyWs (remove_ws_user hub u w) := by
  intro k
  refine ⟨remove_ws_user_keeps_nonempty hub u w k (h k).1, ?_⟩
  rw [remove_ws_user_ws_rooms]
  exact (h k).2

theorem noEmptyWs_add_ws_room (hub : Hub) (r : String) (w : Nat)
    (h : NoEmptyWs hub) : NoEmptyWs (add_ws_room hub r w) := by
  intro k
  refine ⟨(h k).1, ?_⟩
  show mapSet hub.ws_rooms r (pySetAdd (getD hub.ws_rooms r []) w) k ≠ some []
  by_cases hk : k = r
  · subst hk
    simp [mapSet, pySetAdd_ne_nil]
  · simp only [mapSet, hk, if_false]
    exact (h k).2

theorem remove_ws_room_keeps_nonempty (hub : Hub) (r : String) (w : Nat)
    (k : String) (h : hub.ws_rooms k ≠ some []) :
    (remove_ws_room hub r w).ws_rooms k ≠ some [] := by
  by_cases hk : k = r
  · subst hk
    by_cases hs : (getD hub.ws_rooms k []).erase w = []
    · simp [remove_ws_room, hs, mapDrop]
    · simp [remove_ws_room, hs, mapSet]
  · by_cases hs : (getD hub.ws_rooms r []).erase w = []
    · simpa [remove_ws_room, hs, mapDrop, hk] using h
    · simpa [remove_ws_room, hs, mapSet, hk] using h

theorem noEmptyWs_remove_ws_room (hub : Hub) (r : String) (w : Nat)
    (h : NoEmptyWs hub) : NoEmptyWs (remove_ws_room hub r w) := by
  intro k
  refine ⟨?_, remove_ws_room_keeps_nonempty hub r w k (h k).2⟩
  rw [remove_ws_room_ws_by_user]
  exact (h k).1

theorem noEmptyWs_wsFold (f : Nat → Bool) (u : String) (p : JValue)
    (l : List Nat) (acc : Hub × List Delivery) (h : NoEmptyWs acc.1) :
    NoEmptyWs ((l.foldl (wsSendStep f u p) acc).1) := by
  induction l generalizing acc with
  | nil => exact h
  | cons w t ih =>
    simp only [List.foldl_cons]
    apply ih
    simp only [wsSendStep]
    split
    · exact noEmptyWs_remove_ws_user _ _ _ h
    · exact h

theorem noEmptyWs_roomFold (f : Nat → Bool) (r : String) (p : JValue)
    (sender : Nat) (l : List Nat) (acc : Hub × List Delivery)
    (h : NoEmptyWs acc.1) :
    NoEmptyWs ((l.foldl (roomStep f r p sender) acc).1) := by
  induction l generalizing acc with
  | nil => exact h
  | cons w t ih =>
    simp only [List.foldl_cons]
    apply ih
    simp only [roomStep]
    split
    · exact h
    · split
      · exact noEmptyWs_remove_ws_room _ _ _ h
      · exact h

/-- Every hub state reachable by the source's mutating operations keeps
the chat and room registries free of empty entries. -/
theorem reach_noEmptyWs {hub : Hub} (hr : ReachableHub hub) :
    NoEmptyWs hub := by
  induction hr with
  | init =>
      intro k
      exact ⟨by simp [Hub.empty], by simp [Hub.empty]⟩
  | addUser u w _ ih => exact noEmptyWs_add_ws_user _ u w ih
  | removeUser u w _ ih => exact noEmptyWs_remove_ws_user _ u w ih
  | addRoom r w _ ih => exact noEmptyWs_add_ws_room _ r w ih
  | removeRoom r w _ ih => exact noEmptyWs_remove_ws_room _ r w ih
  | sseSub u q _ ih => exact fun k => ih k
  | sseUnsub u q _ ih => exact fun k => ih k
  | bUser wsFails qFails u p _ ih =>
      simp only [broadcast_to_user]
      rw [enqFold]
      exact noEmptyWs_wsFold _ _ _ _ _ ih
  | bRoom wsFails r p s _ ih =>
      simp only [broadcast_room]
      exact noEmptyWs_roomFold _ _ _ _ _ _ ih

/-- A reachable hub in which the last SSE subscriber of `bob` has
unsubscribed: subscribe one queue, then run the SSE cleanup. -/
def sseCycleHub : Hub :=
  sse_unsubscribe (sse_subscribe Hub.empty "bob" 7) "bob" 7

/-- C4 counterexample: the claimed invariant fails for `sse_queues` — the
SSE cleanup removes the queue but never pops the now-empty key, so a
reachable hub maps key `bob` to an empty list. -/
theorem sse_empty_entry_reachable :
    ReachableHub sseCycleHub ∧ sseCycleHub.sse_queues "bob" = some [] := by
  constructor
  · exact ReachableHub.sseUnsub "bob" 7
      (ReachableHub.sseSub "bob" 7 ReachableHub.init)
  · rfl

/-- C4 (amended): in every reachable hub state no key of `ws_by_user` or
of `ws_rooms` maps to an empty set — chat/room unregistration (including
the removal on send failure) pops emptied keys — but `sse_queues` is NOT
covered: the SSE cleanup can leave a key mapped to an empty list. -/
theorem hub_no_empty_chat_room_entries (hub : Hub) (k : String)
    (hr : ReachableHub hub) :
    hub.ws_by_user k ≠ some [] ∧ hub.ws_rooms k ≠ some [] :=
  reach_noEmptyWs hr k

theorem hub_no_empty_chat_room_entries_witness :
    (remove_ws_user (add_ws_user Hub.empty "alice" 1) "alice" 1).ws_by_user
      "alice" ≠ some [] ∧
    (remove_ws_user (add_ws_user Hub.empty "alice" 1) "alice" 1).ws_rooms
      "alice" ≠ some [] :=
  hub_no_empty_chat_room_entries _ "alice"
    (ReachableHub.removeUser "alice" 1
      (ReachableHub.addUser "alice" 1 ReachableHub.init))

/-- C5 counterexample: an inbound frame that IS valid JSON but not an
object (e.g. the text `[]`, which `json.loads` parses to an empty array)
makes `msg.get("type")` / `payload.setdefault(...)` raise
`AttributeError`: the per-frame handler errors instead of normalizing, so
the receive loop is NOT crash-free for every input string (the exception
is only caught at the loop boundary, terminating that connection). -/
theorem chat_loop_crash_on_nonobject_json :
    ws_chat_handle "t0" "u0" (RecvOutcome.okJson (JValue.arr [])) =
      Except.error PyErr.attributeError ∧
    ws_signal_handle "t0" "r0" 0 (fun _ => false) Hub.empty
      (RecvOutcome.okJson (JValue.arr [])) =
      Except.error PyErr.attributeError := by
  constructor <;> rfl

/-- C5 (amended): a frame that is not parseable as JSON is never
rejected: the chat loop wraps it as a `text` message and the signaling
loop wraps it as a `raw` frame, and both handlers then complete without
error, for any raw input string.  (Input that parses to non-object JSON,
by contrast, raises and aborts the loop — see the counterexample.) -/
theorem malformed_frames_wrapped (now user_id room : String) (sender : Nat)
    (wsFails : Nat → Bool) (hub : Hub) (raw : String) :
    chat_normalize (RecvOutcome.badJson raw) =
      JValue.obj [("type", JValue.str "text"),
        ("data", JValue.obj [("text", JValue.str raw)])] ∧
    (∃ effs, ws_chat_handle now user_id (RecvOutcome.badJson raw) =
      Except.ok effs) ∧
    signal_normalize (RecvOutcome.badJson raw) =
      JValue.obj [("type", JValue.str "raw"), ("data", JValue.str raw)] ∧
    (∃ out, ws_signal_handle now room sender wsFails hub
      (RecvOutcome.badJson raw) = Except.ok out) := by
  refine ⟨rfl, ⟨[ChatEffect.reply (JValue.obj [("type", JValue.str "ack"),
      ("data", JValue.obj [("type", JValue.str "text"),
        ("data", JValue.obj [("text", JValue.str raw)])]),
      ("ts", JValue.str now)])], rfl⟩, rfl,
    ⟨broadcast_room wsFails hub room (JValue.obj [("type", JValue.str "raw"),
      ("data", JValue.str raw), ("ts", JValue.str now)]) sender, rfl⟩⟩

theorem malformed_frames_wrapped_witness :
    chat_normalize (RecvOutcome.badJson "not json") =
      JValue.obj [("type", JValue.str "text"),
        ("data", JValue.obj [("text", JValue.str "not json")])] ∧
    (∃ effs, ws_chat_handle "t1" "alice" (RecvOutcome.badJson "not json") =
      Except.ok effs) ∧
    signal_normalize (RecvOutcome.badJson "not json") =
      JValue.obj [("type", JValue.str "raw"),
        ("data", JValue.str "not json")] ∧
    (∃ out, ws_signal_handle "t1" "r1" 5 (fun _ => false) demoHub
      (RecvOutcome.badJson "not json") = Except.ok out) :=
  malformed_frames_wrapped "t1" "alice" "r1" 5 (fun _ => false) demoHub
    "not json"

/-- `broadcast_room` with no send failures: state unchanged, one delivery
per non-sender member in iteration order. -/
theorem broadcast_room_nofail_eq (hub : Hub) (r : String) (p : JValue)
    (sender : Nat) :
    broadcast_room (fun _ => false) hub r p sender =
      (hub, ((getD hub.ws_rooms r []).filter (fun w => w ≠ sender)).map
        (fun w => Delivery.wsText w p)) := by
  unfold broadcast_room
  rw [roomFold_nofail]
  simp

theorem jLookup_append (fs gs : List (String × JValue)) (k : String) :
    jLookup (fs ++ gs) k =
      (match jLookup fs k with
       | some v => some v
       | none => jLookup gs k) := by
  induction fs with
  | nil => simp [jLookup]
  | cons kv t ih =>
    obtain ⟨k1, v1⟩ := kv
    by_cases hk : k = k1
    · simp [jLookup, hk]
    · simp [jLookup, hk, ih]

theorem jLookup_eq_none_iff (fs : List (String × JValue)) (k : String) :
    jLookup fs k = none ↔ (fs.map Prod.fst).contains k = false := by
  induction fs with
  | nil => simp [jLookup]
  | cons kv t ih =>
    obtain ⟨k1, v1⟩ := kv
    by_cases hk : k = k1
    · subst hk
      simp [jLookup]
    · simp [jLookup, hk, ih, beq_eq_false_iff_ne]

/-- The object case of `payload.setdefault("ts", now)`: keep the fields
when a `ts` key exists, else append `("ts", now)`. -/
def stampTs (fs : List (String × JValue)) (now : String) :
    List (String × JValue) :=
  if (fs.map Prod.fst).contains "ts" then fs
  else fs ++ [("ts", JValue.str now)]

/-- C8: for an inbound signaling frame that parses to an object, the
relay stamps a `ts` field with the current time only when the frame lacks
one — an existing `ts` value is never overwritten, and every other field
is relayed unchanged — and forwards the stamped frame via
`broadcast_room` to every room member except the sender, leaving the hub
unchanged (no send failures). -/
theorem ws_signal_stamps_and_relays (now room : String) (sender : Nat)
    (hub : Hub) (fs : List (String × JValue)) :
    ws_signal_handle now room sender (fun _ => false) hub
      (RecvOutcome.okJson (JValue.obj fs)) =
      Except.ok (hub, ((getD hub.ws_rooms room []).filter
        (fun w => w ≠ sender)).map
          (fun w => Delivery.wsText w (JValue.obj (stampTs fs now)))) ∧
    (∀ k, k ≠ "ts" → jLookup (stampTs fs now) k = jLookup fs k) ∧
    (jLookup fs "ts" = none →
      jLookup (stampTs fs now) "ts" = some (JValue.str now)) ∧
    (∀ v, jLookup fs "ts" = some v →
      jLookup (stampTs fs now) "ts" = some v) := by
  refine ⟨?_, ?_, ?_, ?_⟩
  · simp only [ws_signal_handle, signal_normalize, pySetdefault, stampTs]
    by_cases hts : (fs.map Prod.fst).contains "ts" = true
    · simp only [hts, if_true]
      rw [broadcast_room_nofail_eq]
    · simp only [Bool.not_eq_true] at hts
      simp only [hts, Bool.false_eq_true, if_false]
      rw [broadcast_room_nofail_eq]
  · intro k hk
    simp only [stampTs]
    by_cases hts : (fs.map Prod.fst).contains "ts" = true
    · rw [if_pos hts]
    · simp only [Bool.not_eq_true] at hts
      simp only [hts, Bool.false_eq_true, if_false]
      rw [jLookup_append]
      cases h : jLookup fs k with
      | some v => rfl
      | none => simp [jLookup, hk]
  · intro hnone
    have hc : (fs.map Prod.fst).contains "ts" = false :=
      (jLookup_eq_none_iff fs "ts").mp hnone
    simp only [stampTs, hc, Bool.false_eq_true, if_false]
    rw [jLookup_append, hnone]
    simp [jLookup]
  · intro v hv
    have hc2 : (fs.map Prod.fst).contains "ts" = true := by
      cases h : (fs.map Prod.fst).contains "ts"
      · rw [(jLookup_eq_none_iff fs "ts").mpr h] at hv
        cases hv
      · rfl
    simp only [stampTs, hc2]
    simpa using hv

/-- The spec's example signaling frame: an offer with no timestamp. -/
def sigFrame : List (String × JValue) :=
  [("type", JValue.str "offer"), ("sdp", JValue.str "x"),
   ("nonce", JValue.str "n1")]

theorem ws_signal_stamps_and_relays_witness :
    ws_signal_handle "T" "r1" 5 (fun _ => false) demoHub
      (RecvOutcome.okJson (JValue.obj sigFrame)) =
      Except.ok (demoHub,
        [Delivery.wsText 6 (JValue.obj (stampTs sigFrame "T"))]) ∧
    jLookup (stampTs sigFrame "T") "nonce" = jLookup sigFrame "nonce" ∧
    jLookup (stampTs sigFrame "T") "ts" = some (JValue.str "T") := by
  have h := ws_signal_stamps_and_relays "T" "r1" 5 demoHub sigFrame
  refine ⟨?_, h.2.1 "nonce" (by decide), h.2.2.1 (by rfl)⟩
  have h1 := h.1
  simpa [demoHub, getD] using h1

/-- C7: `POST /api/message` with a body whose user_id or text is empty
after stripping returns the 400 error with detail exactly
`user_id and text are required` and performs no mutation (state returned
unchanged, no deliveries); with both non-empty it appends exactly one
ChatMessage to that user's store entry (other keys untouched), with role
defaulting to `user` when absent, performs the sends of exactly one
`broadcast_to_user` call with the message payload, and returns
`ok` with the created message. -/
theorem post_message_spec (newId now : String) (wsFails qFails : Nat → Bool)
    (st : SrvState) (body : PostBody) :
    (pyStrip (body.user_id.getD "") = "" ∨ pyStrip (body.text.getD "") = "" →
      post_message newId now wsFails qFails st body =
        (PostResult.httpError 400 "user_id and text are required", st, [])) ∧
    (pyStrip (body.user_id.getD "") ≠ "" → pyStrip (body.text.getD "") ≠ "" →
      ∃ m : ChatMsg,
        (post_message newId now wsFails qFails st body).1 = PostResult.ok m ∧
        m.id = newId ∧
        m.ts = now ∧
        m.user_id = pyStrip (body.user_id.getD "") ∧
        m.text = pyStrip (body.text.getD "") ∧
        (body.role = none → m.role = "user") ∧
        getD (post_message newId now wsFails qFails st body).2.1.messages
            (pyStrip (body.user_id.getD "")) [] =
          getD st.messages (pyStrip (body.user_id.getD "")) [] ++ [m] ∧
        (∀ v, v ≠ pyStrip (body.user_id.getD "") →
          (post_message newId now wsFails qFails st body).2.1.messages v =
            st.messages v) ∧
        (post_message newId now wsFails qFails st body).2.1.hub =
          (broadcast_to_user wsFails qFails st.hub
            (pyStrip (body.user_id.getD ""))
            (JValue.obj [("type", JValue.str "message"),
              ("data", msgJson m)])).1 ∧
        (post_message newId now wsFails qFails st body).2.2 =
          (broadcast_to_user wsFails qFails st.hub
            (pyStrip (body.user_id.getD ""))
            (JValue.obj [("type", JValue.str "message"),
              ("data", msgJson m)])).2) := by
  constructor
  · intro h
    simp only [post_message]
    rw [if_pos h]
  · intro h1 h2
    have key : post_message newId now wsFails qFails st body =
        (PostResult.ok ⟨newId, now, pyStrip (body.user_id.getD ""),
           pyStrip (match body.role with
                    | none => "user"
                    | some s => if s = "" then "user" else s),
           pyStrip (body.text.getD "")⟩,
         ⟨mapSet st.messages (pyStrip (body.user_id.getD ""))
            (getD st.messages (pyStrip (body.user_id.getD "")) [] ++
             [⟨newId, now, pyStrip (body.user_id.getD ""),
               pyStrip (match body.role with
                        | none => "user"
                        | some s => if s = "" then "user" else s),
               pyStrip (body.text.getD "")⟩]),
          (broadcast_to_user wsFails qFails st.hub
            (pyStrip (body.user_id.getD ""))
            (JValue.obj [("type", JValue.str "message"),
              ("data", msgJson ⟨newId, now, pyStrip (body.user_id.getD ""),
                pyStrip (match body.role with
                         | none => "user"
                         | some s => if s = "" then "user" else s),
                pyStrip (body.text.getD "")⟩)])).1⟩,
         (broadcast_to_user wsFails qFails st.hub
           (pyStrip (body.user_id.getD ""))
           (JValue.obj [("type", JValue.str "message"),
             ("data", msgJson ⟨newId, now, pyStrip (body.user_id.getD ""),
               pyStrip (match body.role with
                        | none => "user"
                        | some s => if s = "" then "user" else s),
               pyStrip (body.text.getD "")⟩)])).2) := by
      simp only [post_message]
      rw [if_neg (not_or.mpr ⟨h1, h2⟩)]
    refine ⟨⟨newId, now, pyStrip (body.user_id.getD ""),
      pyStrip (match body.role with
               | none => "user"
               | some s => if s = "" then "user" else s),
      pyStrip (body.text.getD "")⟩,
      ?_, rfl, rfl, rfl, rfl, ?_, ?_, ?_, ?_, ?_⟩
    · rw [key]
    · intro hr
      rw [hr]
      show pyStrip "user" = "user"
      decide
    · rw [key]
      exact getD_mapSet_self _ _ _ _
    · intro v hv
      rw [key]
      exact mapSet_ne _ _ _ _ hv
    · rw [key]
    · rw [key]

theorem post_message_spec_witness :
    post_message "id1" "T2" (fun _ => false) (fun _ => false)
      ⟨fun _ => none, demoHub⟩ ⟨some "  ", some "hi", none⟩ =
      (PostResult.httpError 400 "user_id and text are required",
       ⟨fun _ => none, demoHub⟩, []) ∧
    (post_message "id1" "T2" (fun _ => false) (fun _ => false)
      ⟨fun _ => none, demoHub⟩ ⟨some "alice", some "hi", none⟩).1 =
      PostResult.ok ⟨"id1", "T2", "alice", "user", "hi"⟩ := by
  constructor
  · exact (post_message_spec "id1" "T2" (fun _ => false) (fun _ => false)
      ⟨fun _ => none, demoHub⟩ ⟨some "  ", some "hi", none⟩).1
      (Or.inl (by decide))
  · obtain ⟨m, hm1, hid, hts, huid, htext, hrole, -, -, -, -⟩ :=
      (post_message_spec "id1" "T2" (fun _ => false) (fun _ => false)
        ⟨fun _ => none, demoHub⟩ ⟨some "alice", some "hi", none⟩).2
        (by decide) (by decide)
    obtain ⟨mid, mts, muid, mrole, mtext⟩ := m
    have e1 : pyStrip ((some "alice" : Option String).getD "") = "alice" := by
      decide
    have e2 : pyStrip ((some "hi" : Option String).getD "") = "hi" := by
      decide
    rw [e1] at huid
    rw [e2] at htext
    have e3 := hrole rfl
    simp only at hid hts huid htext e3
    subst hid
    subst hts
    subst huid
    subst htext
    subst e3
    exact hm1

/-- C9 counterexample: the SSE adapter's subscribe (`append`, line 146)
and cleanup (`remove`, line 165) mutate `sse_queues` while holding no
lock, so not every mutation of the three Hub mappings is performed under
the Hub's exclusive lock. -/
theorem sse_mutation_without_lock :
    mutationsLocked (opEvents HubOp.sseSubscribe) 0 = false ∧
    mutationsLocked (opEvents HubOp.sseUnsubscribe) 0 = false := by
  constructor <;> rfl

theorem lockedReplicate (n : Nat) (f : MapField) (sel : MapField → Bool) :
    mutationsLockedOn sel
      ((List.replicate n [LockEv.acq, LockEv.mut f, LockEv.rel]).flatten) 0 =
      true := by
  induction n with
  | zero => rfl
  | succ k ih =>
      rw [List.replicate_succ, List.flatten_cons]
      simp [mutationsLockedOn, ih]

/-- C9 (amended): every mutation of `ws_by_user` and of `ws_rooms` — by
the four add/remove methods and by the unregistration a broadcast
performs on send failure — happens while holding the Hub's single
exclusive lock (broadcast sends themselves proceed outside the lock);
the SSE adapter's `sse_queues` mutations, however, are NOT
lock-protected. -/
theorem chat_room_mutations_locked (op : HubOp) :
    mutationsLockedOn (fun f => match f with
      | MapField.push => false
      | _ => true) (opEvents op) 0 = true := by
  cases op with
  | addWsUser => rfl
  | removeWsUser => rfl
  | addWsRoom => rfl
  | removeWsRoom => rfl
  | sseSubscribe => rfl
  | sseUnsubscribe => rfl
  | broadcastToUser n => exact lockedReplicate n MapField.chat _
  | broadcastRoom n => exact lockedReplicate n MapField.rooms _
